import Mathlib

/-!
Verification development for the `pbui-package` client library.

The source is a JavaScript module exposing a `PBUI` class (connection
lifecycle, event registry), a `PBUIState` class (keyed state cache with
deep-equality change suppression) and a `funcs` helper class (deep equality,
HTTP plumbing).  The definitions below are a shallow embedding of those
functions: JS values are modelled by the inductive `Value`, stateful methods
by explicit state passing on small structures mirroring the class fields.
-/

set_option autoImplicit false

namespace PBUIModel

/-- Model of a JavaScript number as far as the library inspects one:
the library only ever applies `===`, `typeof` and `isNaN` to numbers
(no arithmetic), so finite doubles are represented by their (rational,
here integral) value and the special values `NaN`, `Infinity`,
`-Infinity` get their own constructors. -/
inductive JSNum where
  | nan
  | pinf
  | ninf
  | fin (i : Int)
deriving DecidableEq, Repr

/-- Model of the JavaScript values the library manipulates: primitives,
arrays and plain objects (a list of fields in insertion order). -/
inductive Value where
  | vNull
  | vUndef
  | vBool (b : Bool)
  | vNum (n : JSNum)
  | vStr (s : String)
  | vArr (elems : List Value)
  | vObj (fields : List (String × Value))
deriving Repr

open Value

/-- `===` on numbers: `NaN` is equal to nothing (itself included). -/
def jsNumEq : JSNum → JSNum → Bool
  | .nan, _ => false
  | _, .nan => false
  | .pinf, .pinf => true
  | .ninf, .ninf => true
  | .fin a, .fin b => a == b
  | _, _ => false

/-- JavaScript strict equality `===`.  Primitives compare by value (with
the `NaN` exception); for two composite values `===` is reference
equality, and two structurally given terms model distinct references, so
the composite/composite and mixed cases are `false`. -/
def jsStrictEq : Value → Value → Bool
  | vNull, vNull => true
  | vUndef, vUndef => true
  | vBool a, vBool b => a == b
  | vNum a, vNum b => jsNumEq a b
  | vStr a, vStr b => a == b
  | _, _ => false

/-- JavaScript truthiness: `null`, `undefined`, `false`, `0`, `NaN` and
`""` are falsy; every object and array is truthy. -/
def jsTruthy : Value → Bool
  | vNull => false
  | vUndef => false
  | vBool b => b
  | vNum .nan => false
  | vNum (.fin i) => !(i == 0)
  | vNum _ => true
  | vStr s => !(s == "")
  | vArr _ => true
  | vObj _ => true

/-- JavaScript `typeof`: note `typeof null === 'object'`. -/
def jsTypeof : Value → String
  | vNull => "object"
  | vUndef => "undefined"
  | vBool _ => "boolean"
  | vNum _ => "number"
  | vStr _ => "string"
  | vArr _ => "object"
  | vObj _ => "object"

/-- The enumerable own fields of a value, as `Object.keys` enumerates
them: an array contributes its indices as decimal strings (helper for
`fieldsOf`). -/
def enumFrom (i : Nat) : List Value → List (String × Value)
  | [] => []
  | v :: r => (toString i, v) :: enumFrom (i + 1) r

/-- The (key, value) fields of a value: arrays expose index-string keys,
objects their fields in insertion order, primitives none. -/
def fieldsOf : Value → List (String × Value)
  | vArr l => enumFrom 0 l
  | vObj l => l
  | _ => []

/-- `Object.keys v` in enumeration order. -/
def jsKeys (v : Value) : List String :=
  (fieldsOf v).map Prod.fst

/-- Property access `v[k]`: the first field named `k`, `undefined` when
absent. -/
def getField (v : Value) (k : String) : Value :=
  ((fieldsOf v).lookup k).getD vUndef

mutual

def szFields : List (String × Value) → Nat
  | [] => 0
  | (_, v) :: r => 1 + sz v + szFields r

def szList : List Value → Nat
  | [] => 0
  | v :: r => 1 + sz v + szList r

/-- Structural size of a value, the termination measure for `_valueEqual`. -/
def sz : Value → Nat
  | vArr l => 1 + szList l
  | vObj l => 1 + szFields l
  | _ => 1

end

theorem szFields_enumFrom (l : List Value) : ∀ i, szFields (enumFrom i l) = szList l := by
  induction l with
  | nil => intro i; rfl
  | cons v r ih => intro i; simp [enumFrom, szFields, szList, ih]

theorem szFields_fieldsOf_lt (v : Value) : szFields (fieldsOf v) < sz v := by
  cases v <;> simp [fieldsOf, szFields, sz, szFields_enumFrom]

theorem sz_lt_of_mem_szFields {k : String} {w : Value} :
    ∀ {fs : List (String × Value)}, (k, w) ∈ fs → sz w < 1 + szFields fs := by
  intro fs h
  induction fs with
  | nil => cases h
  | cons p r ih =>
    rcases List.mem_cons.mp h with h | h
    · cases h; simp [szFields]; omega
    · have := ih h
      cases p with
      | mk a b => simp [szFields]; omega

theorem sz_lt_of_mem_fieldsOf {v : Value} {k : String} {w : Value}
    (h : (k, w) ∈ fieldsOf v) : sz w < sz v := by
  have h2 : sz w < 1 + szFields (fieldsOf v) := sz_lt_of_mem_szFields h
  have h3 := szFields_fieldsOf_lt v
  omega

mutual

/-- Embedding of `funcs._valueEqual` (source lines 275–291): strict-equality
short circuit; non-objects (and falsy values, `null` included) fall back to
strict equality; two truthy objects compare by key-set size, key inclusion
and recursive equality of the corresponding field values. -/
def _valueEqual (v1 v2 : Value) : Bool :=
  if jsStrictEq v1 v2 then true
  else if !jsTruthy v1 || !jsTruthy v2
       || !(jsTypeof v1 == "object") || !(jsTypeof v2 == "object") then
    jsStrictEq v1 v2
  else
    (jsKeys v1).length == (jsKeys v2).length && fieldsAll (fieldsOf v1) v2
termination_by sz v1
decreasing_by exact szFields_fieldsOf_lt v1

/-- The `for (let key of keys1)` loop body of `_valueEqual`: every key of
`v1` must be a key of `v2` with recursively equal value. -/
def fieldsAll (fs : List (String × Value)) (v2 : Value) : Bool :=
  match fs with
  | [] => true
  | (key, w) :: rest =>
    ((jsKeys v2).contains key && _valueEqual w (getField v2 key)) && fieldsAll rest v2
termination_by szFields fs
decreasing_by all_goals (simp [szFields]; try omega)

end

/-- A value that reaches the recursive key-comparison branch of
`_valueEqual`: a truthy value of `typeof` "object", i.e. an array or a
plain object. -/
def isComposite : Value → Bool
  | vArr _ => true
  | vObj _ => true
  | _ => false

theorem jsStrictEq_false_of_isComposite {a : Value} (b : Value)
    (h : isComposite a = true) : jsStrictEq a b = false := by
  cases a <;> cases b <;> simp_all [isComposite, jsStrictEq]

theorem eq_of_jsNumEq {a b : JSNum} (h : jsNumEq a b = true) : a = b := by
  cases a <;> cases b <;> simp_all [jsNumEq]

theorem eq_of_jsStrictEq {a b : Value} (h : jsStrictEq a b = true) : a = b := by
  cases a <;> cases b <;> simp_all [jsStrictEq] <;> exact eq_of_jsNumEq h

/-- `_valueEqual` restated: two composite values compare by keys and
fields, anything else by strict equality. -/
theorem valueEqual_eq (v1 v2 : Value) :
    _valueEqual v1 v2 =
      if isComposite v1 && isComposite v2 then
        (jsKeys v1).length == (jsKeys v2).length && fieldsAll (fieldsOf v1) v2
      else jsStrictEq v1 v2 := by
  cases v1 <;> cases v2 <;>
    simp [_valueEqual, jsStrictEq, jsTruthy, jsTypeof, isComposite, jsNumEq] <;>
    (try split <;> simp_all)

theorem fieldsAll_eq_true_iff (fs : List (String × Value)) (v2 : Value) :
    fieldsAll fs v2 = true ↔
      ∀ k w, (k, w) ∈ fs →
        (jsKeys v2).contains k = true ∧ _valueEqual w (getField v2 k) = true := by
  induction fs with
  | nil => simp [fieldsAll]
  | cons p rest ih =>
    cases p with
    | mk k w =>
      rw [fieldsAll]
      constructor
      · intro h k' w' hmem
        rcases List.mem_cons.mp hmem with h' | h'
        · cases h'
          exact ⟨(Bool.and_eq_true .. |>.mp (Bool.and_eq_true .. |>.mp h).1).1,
                 (Bool.and_eq_true .. |>.mp (Bool.and_eq_true .. |>.mp h).1).2⟩
        · exact (ih.mp (Bool.and_eq_true .. |>.mp h).2) k' w' h'
      · intro h
        have h1 := h k w (List.mem_cons_self ..)
        refine Bool.and_eq_true .. |>.mpr ⟨Bool.and_eq_true .. |>.mpr ⟨h1.1, h1.2⟩, ?_⟩
        exact (ih).mpr fun k' w' hm => h k' w' (List.mem_cons_of_mem _ hm)

theorem lookup_mem {l : List (String × Value)} {k : String}
    (h : k ∈ l.map Prod.fst) : ∃ w, l.lookup k = some w ∧ (k, w) ∈ l := by
  induction l with
  | nil => simp at h
  | cons p rest ih =>
    cases p with
    | mk a b =>
      by_cases hk : k = a
      · subst hk
        exact ⟨b, by simp [List.lookup], List.mem_cons_self ..⟩
      · have hne : (k == a) = false := beq_eq_false_iff_ne.mpr hk
        have h' : k ∈ rest.map Prod.fst := by
          simp only [List.map_cons, List.mem_cons] at h
          rcases h with h2 | h2
          · exact absurd h2 hk
          · exact h2
        obtain ⟨w, hw, hmem⟩ := ih h'
        exact ⟨w, by simp [List.lookup, hne, hw], List.mem_cons_of_mem _ hmem⟩

theorem getField_mem {v : Value} {k : String} (h : k ∈ jsKeys v) :
    (k, getField v k) ∈ fieldsOf v := by
  obtain ⟨w, hw, hmem⟩ := lookup_mem (by simpa [jsKeys] using h)
  simpa [getField, hw] using hmem

theorem one_le_sz (v : Value) : 1 ≤ sz v := by
  cases v <;> simp [sz]

theorem valueEqual_trans_aux :
    ∀ (n : Nat) (a b c : Value), sz a ≤ n →
      _valueEqual a b = true → _valueEqual b c = true → _valueEqual a c = true := by
  intro n
  induction n with
  | zero => intro a b c hsz; have := one_le_sz a; omega
  | succ n ih =>
    intro a b c hsz hab hbc
    rw [valueEqual_eq] at hab hbc ⊢
    by_cases hca : isComposite a = true
    · have hcb : isComposite b = true := by
        by_contra hb
        have hb' : isComposite b = false := by simpa using hb
        rw [hca, hb'] at hab
        simp [jsStrictEq_false_of_isComposite b hca] at hab
      have hcc : isComposite c = true := by
        by_contra hc
        have hc' : isComposite c = false := by simpa using hc
        rw [hcb, hc'] at hbc
        simp [jsStrictEq_false_of_isComposite c hcb] at hbc
      simp only [hca, hcb, hcc, Bool.and_self, if_true, Bool.and_eq_true, beq_iff_eq]
        at hab hbc ⊢
      refine ⟨hab.1.trans hbc.1, ?_⟩
      rw [fieldsAll_eq_true_iff] at hab hbc ⊢
      intro k w hmem
      obtain ⟨hk_b, hw_b⟩ := hab.2 k w hmem
      have hkmem : k ∈ jsKeys b := List.mem_of_elem_eq_true hk_b
      obtain ⟨hk_c, hbc_k⟩ := hbc.2 k (getField b k) (getField_mem hkmem)
      have hszw : sz w ≤ n := by
        have := sz_lt_of_mem_fieldsOf hmem
        omega
      exact ⟨hk_c, ih w (getField b k) (getField c k) hszw hw_b hbc_k⟩
    · have hca' : isComposite a = false := by simpa using hca
      simp only [hca', Bool.false_and, Bool.false_eq_true, if_false] at hab ⊢
      have hab' : a = b := eq_of_jsStrictEq hab
      subst hab'
      simp only [hca', Bool.false_and, Bool.false_eq_true, if_false] at hbc
      exact hbc

/-- Deep equality is transitive. -/
theorem valueEqual_trans {a b c : Value}
    (hab : _valueEqual a b = true) (hbc : _valueEqual b c = true) :
    _valueEqual a c = true :=
  valueEqual_trans_aux (sz a) a b c le_rfl hab hbc

/-! ## The state cache (`PBUIState`) -/

/-- The exceptions JavaScript execution of the embedded methods can
raise: a runtime `TypeError` (e.g. calling a value that is not a
function) or an explicit `throw new Error(msg)`. -/
inductive JSException where
  | typeError (msg : String)
  | error (msg : String)
deriving DecidableEq

/-- The call-site expression `funcs._valueEqual(obj1, obj2)` (line 353).
`_valueEqual` is an instance (prototype) method of the class `funcs`
(line 275), the class is never instantiated anywhere in the module, and
every call site accesses the method on the class object itself — where it
is `undefined` — so the call raises a `TypeError` before the method body
(embedded above as `_valueEqual`) could run. -/
def funcs_valueEqual (obj1 obj2 : Value) : Except JSException Bool :=
  let _ := (obj1, obj2)
  .error (.typeError "funcs._valueEqual is not a function")

/-- The call-site expression `funcs._fetchData(endpoint, method, body)`
(lines 365, 387, 393, …).  Like `_valueEqual`, `_fetchData` is an
instance method of the never-instantiated class `funcs` accessed on the
class object, so the call raises a `TypeError` before any HTTP request is
issued. -/
def funcs_fetchData (endpoint method : String) (body : Option Value) :
    Except JSException Value :=
  let _ := (endpoint, method, body)
  .error (.typeError "funcs._fetchData is not a function")

/-- The fields of the `PBUIState` class that `_internalUpdate` touches:
`this.data` (absent keys read as `undefined`) and `this.listeners`
(absent keys read as an empty listener list).  Listeners are identified
by opaque ids. -/
structure PBUIState where
  data : String → Value
  listeners : String → List Nat

/-- Embedding of `PBUIState._internalUpdate` (source lines 352–359) as
executed: the guard is written `funcs._valueEqual(this.data[key], value)`,
which raises a `TypeError` (see `funcs_valueEqual`), and the method
propagates that exception; the store-and-fire body below the guard —
replace the stored value and invoke the key's listeners in registration
order — is kept here but is dead code.  On the (unreachable) normal path
the second component is the list of listeners invoked. -/
def _internalUpdate (st : PBUIState) (key : String) (value : Value) :
    Except JSException (PBUIState × List Nat) :=
  match funcs_valueEqual (st.data key) value with
  | .error e => .error e
  | .ok isEq =>
    if !isEq then
      .ok ({ st with data := fun k => if k = key then value else st.data k },
           st.listeners key)
    else
      .ok (st, [])

/-- C1: the equality-gated update the claim describes is the evident
intent of lines 352–359, but it never executes: the comparison is written
`funcs._valueEqual(...)`, an instance method accessed on the
never-instantiated class `funcs`, so every call of the state-cache
internal update raises a `TypeError` before comparing anything — no value
is ever stored and no change listener ever fires, neither on a first
distinct value nor on a deep-equal repeat. -/
theorem C1_internalUpdate_always_throws (st : PBUIState) (k : String)
    (v : Value) :
    _internalUpdate st k v =
      .error (.typeError "funcs._valueEqual is not a function") := by
  simp [_internalUpdate, funcs_valueEqual]

theorem toString_nat_zero : toString (0 : Nat) = "0" := rfl

theorem toString_nat_one : toString (1 : Nat) = "1" := rfl

/-- C10: the deep-equality method body compares any two truthy objects
only by key sets and recursive field values, never by kind, so it reports
the array `[1, 2]` and the plain object `{"0": 1, "1": 2}` equal — but
the claimed state-cache consequence never occurs: `_internalUpdate`
invokes the comparison as `funcs._valueEqual`, an instance method on the
never-instantiated class, so replacing a stored `[1, 2]` with
`{"0": 1, "1": 2}` raises a `TypeError` instead of running the
equality-gated suppression (nothing is stored and no listener fires, but
only because the update throws). -/
theorem C10_array_object_deep_equal :
    _valueEqual (vArr [vNum (.fin 1), vNum (.fin 2)])
      (vObj [("0", vNum (.fin 1)), ("1", vNum (.fin 2))]) = true ∧
    _internalUpdate
      ⟨fun _ => vArr [vNum (.fin 1), vNum (.fin 2)], fun _ => [0]⟩ "state"
      (vObj [("0", vNum (.fin 1)), ("1", vNum (.fin 2))]) =
      .error (.typeError "funcs._valueEqual is not a function") := by
  constructor
  · simp [_valueEqual, fieldsAll, jsStrictEq, jsTruthy, jsTypeof, jsKeys, fieldsOf,
      enumFrom, getField, jsNumEq, toString_nat_zero, toString_nat_one]
    decide
  · simp [_internalUpdate, funcs_valueEqual]

/-! ## The connection manager (`PBUI`) -/

/-- The live transport handle (`this.socket`); `connected` mirrors
`socket.connected`. -/
structure SocketHandle where
  connected : Bool
deriving DecidableEq

/-- The `PBUI` instance fields the connection lifecycle and the event
registry read and write.  `connectionPromise` holds the id of the pending
readiness future; `heartbeatInterval` records whether a heartbeat timer is
active; `listeners` is the subscription registry, with `none` for an event
that never had a listener list created. -/
structure PBUIClient where
  socket : Option SocketHandle
  reconnectionAttempts : Nat
  heartbeatInterval : Bool
  connecting : Bool
  connectionPromise : Option Nat
  manualDisconnect : Bool
  listeners : String → Option (List Nat)

/-- `this.socket && this.socket.connected`: a live connection exists. -/
def socketLive (s : PBUIClient) : Bool :=
  match s.socket with
  | some sk => sk.connected
  | none => false

/-- Embedding of `PBUI._reconnect` (source lines 122–139): bail out once
the attempt counter has reached 10; otherwise compute the delay from the
current counter, increment the counter, set the connecting flag and
schedule a retry after the delay.  The second component is the delay of
the scheduled retry, `none` when no retry was scheduled. -/
def _reconnect (s : PBUIClient) : PBUIClient × Option Nat :=
  if s.reconnectionAttempts ≥ 10 then (s, none)
  else
    let delay := min (1000 * 2 ^ s.reconnectionAttempts) 10000
    ({ s with connecting := true,
              reconnectionAttempts := s.reconnectionAttempts + 1 },
     some delay)

/-- `PBUI._stopHeartbeat` (lines 115–120). -/
def _stopHeartbeat (s : PBUIClient) : PBUIClient :=
  { s with heartbeatInterval := false }

/-- `PBUI._cleanupSocket` (lines 160–167): discard the socket handle (after
detaching its handlers and closing it) and stop the heartbeat. -/
def _cleanupSocket (s : PBUIClient) : PBUIClient :=
  { _stopHeartbeat s with socket := none }

/-- The synchronous prefix of `PBUI.disconnect` (lines 141–158): a no-op
when no socket exists; otherwise set the manual-disconnect flag and stop
the heartbeat, then request transport close and wait for the transport's
`disconnect` event. -/
def disconnectBegin (s : PBUIClient) : PBUIClient :=
  if s.socket = none then s
  else { _stopHeartbeat s with manualDisconnect := true }

/-- Embedding of the transport `disconnect` event handler installed by
`PBUI._setupEventHandlers` (lines 86–94): clean up the socket, then either
call `_reconnect` (abnormal closure) or clear the manual flag and stay
idle (manual closure).  The second component is the scheduled reconnect
delay, `none` when no reconnect was scheduled. -/
def onDisconnectHandler (s : PBUIClient) : PBUIClient × Option Nat :=
  let s1 := _cleanupSocket s
  if !s1.manualDisconnect then _reconnect s1
  else ({ s1 with manualDisconnect := false }, none)

/-- Iterated failure cycle of the reconnect scheduler: the client state
after `n` invocations of `_reconnect`, each retry having failed without
touching the attempt counter. -/
def reconnectIter (s : PBUIClient) : Nat → PBUIClient
  | 0 => s
  | n + 1 => (_reconnect (reconnectIter s n)).1

theorem reconnectIter_attempts {s : PBUIClient} (h0 : s.reconnectionAttempts = 0) :
    ∀ n, n ≤ 10 → (reconnectIter s n).reconnectionAttempts = n := by
  intro n
  induction n with
  | zero => intro _; simpa [reconnectIter] using h0
  | succ n ih =>
    intro hle
    have hn : (reconnectIter s n).reconnectionAttempts = n := ih (by omega)
    have hlt : ¬ 10 ≤ n := by omega
    simp [reconnectIter, _reconnect, hn, hlt]

/-- C3: starting from attempt counter 0, the delay before scheduled retry
`n` (0-indexed) is `min (1000 * 2 ^ n) 10000` for every `n < 10` — in
particular `1000, 2000, 4000, 8000, 10000, 10000` for attempts 0–5 — the
attempt counter reads `n + 1` once retry `n` is scheduled, and after 10
failed attempts `_reconnect` schedules no 11th retry and leaves the state
unchanged. -/
theorem C3_reconnect_backoff (s : PBUIClient) (h0 : s.reconnectionAttempts = 0) :
    (∀ n, n < 10 →
      (_reconnect (reconnectIter s n)).2 = some (min (1000 * 2 ^ n) 10000) ∧
      (reconnectIter s (n + 1)).reconnectionAttempts = n + 1) ∧
    ((_reconnect (reconnectIter s 0)).2 = some 1000 ∧
     (_reconnect (reconnectIter s 1)).2 = some 2000 ∧
     (_reconnect (reconnectIter s 2)).2 = some 4000 ∧
     (_reconnect (reconnectIter s 3)).2 = some 8000 ∧
     (_reconnect (reconnectIter s 4)).2 = some 10000 ∧
     (_reconnect (reconnectIter s 5)).2 = some 10000) ∧
    ((_reconnect (reconnectIter s 10)).2 = none ∧
     (_reconnect (reconnectIter s 10)).1 = reconnectIter s 10) := by
  have hdelay : ∀ n, n < 10 →
      (_reconnect (reconnectIter s n)).2 = some (min (1000 * 2 ^ n) 10000) := by
    intro n hn
    have ha := reconnectIter_attempts h0 n (by omega)
    have hlt : ¬ 10 ≤ n := by omega
    simp [_reconnect, ha, hlt]
  have hstep : ∀ n, n < 10 →
      (reconnectIter s (n + 1)).reconnectionAttempts = n + 1 := fun n hn =>
    reconnectIter_attempts h0 (n + 1) (by omega)
  have h10 := reconnectIter_attempts h0 10 le_rfl
  refine ⟨fun n hn => ⟨hdelay n hn, hstep n hn⟩, ?_, ?_⟩
  · refine ⟨?_, ?_, ?_, ?_, ?_, ?_⟩ <;>
      · rw [hdelay _ (by omega)]; norm_num
  · constructor <;> simp [_reconnect, h10]

/-- Witness for C3: a fresh client (attempt counter 0). -/
theorem C3_reconnect_backoff_witness :
    (PBUIClient.mk none 0 false false none false (fun _ => none)).reconnectionAttempts
      = 0 ∧
    (_reconnect (reconnectIter
        (PBUIClient.mk none 0 false false none false (fun _ => none)) 4)).2 =
      some 10000 ∧
    (_reconnect (reconnectIter
        (PBUIClient.mk none 0 false false none false (fun _ => none)) 10)).2 = none :=
  ⟨rfl,
   ((C3_reconnect_backoff _ rfl).2.1).2.2.2.2.1,
   ((C3_reconnect_backoff _ rfl).2.2).1⟩

/-- C4: on a connected client, a manual `disconnect()` makes the following
transport-level disconnect event schedule no reconnect: the handler clears
the manual flag and leaves the client idle (no socket, heartbeat stopped,
attempt counter untouched). -/
theorem C4_manual_disconnect_suppresses_reconnect (s : PBUIClient)
    (h : s.socket ≠ none) :
    (onDisconnectHandler (disconnectBegin s)).2 = none ∧
    (onDisconnectHandler (disconnectBegin s)).1.manualDisconnect = false ∧
    (onDisconnectHandler (disconnectBegin s)).1.socket = none ∧
    (onDisconnectHandler (disconnectBegin s)).1.heartbeatInterval = false ∧
    (onDisconnectHandler (disconnectBegin s)).1.reconnectionAttempts =
      s.reconnectionAttempts := by
  simp [disconnectBegin, h, onDisconnectHandler, _cleanupSocket, _stopHeartbeat]

/-- Witness for C4: a concrete connected client. -/
theorem C4_manual_disconnect_suppresses_reconnect_witness :
    (PBUIClient.mk (some ⟨true⟩) 0 true false none false fun _ => none).socket
      ≠ none ∧
    (onDisconnectHandler (disconnectBegin
      (PBUIClient.mk (some ⟨true⟩) 0 true false none false fun _ => none))).2
      = none :=
  ⟨by simp,
   (C4_manual_disconnect_suppresses_reconnect _ (by simp)).1⟩

/-! ## Connection-dependent operations and `_ensureConnected` -/

/-- The errors the connection layer raises. -/
inductive PBUIError where
  | notConnected
  | connectionFailed (msg : String)
deriving DecidableEq

/-- The connection-related actions an operation can perform. -/
inductive Action where
  | awaitReadiness (promiseId : Nat)
  | startTransportConnect
deriving DecidableEq

/-- Embedding of `PBUI._ensureConnected` (lines 76–79): when a connect is
in progress, await the stored readiness future (`resolve` is the
environment's effect on the state while suspended: the outcome of that
same attempt); then raise `notConnected` exactly when no live connection
exists.  The components are: the actions performed, the state after the
optional await, and the result. -/
def _ensureConnected (s : PBUIClient) (resolve : PBUIClient → PBUIClient) :
    List Action × PBUIClient × Except PBUIError Unit :=
  if s.connecting then
    let s' := resolve s
    ((match s.connectionPromise with
      | some p => [Action.awaitReadiness p]
      | none => []),
     s',
     if !(socketLive s') then .error .notConnected else .ok ())
  else
    ([], s, if !(socketLive s) then .error .notConnected else .ok ())

/-- `PBUI.send` (lines 179–187): `_ensureConnected`, then emit on the
socket — the body performs no connection action and no state change. -/
def send (s : PBUIClient) (resolve : PBUIClient → PBUIClient)
    (event : String) (data : Value) : List Action × PBUIClient × Except PBUIError Unit :=
  let _ := (event, data)
  _ensureConnected s resolve

/-- `PBUI.on` (lines 169–177; `on` is reserved in Lean, hence `onEvent`):
`_ensureConnected`, then register a raw callback on the socket — no
connection action, no client-state change. -/
def onEvent (s : PBUIClient) (resolve : PBUIClient → PBUIClient)
    (event : String) : List Action × PBUIClient × Except PBUIError Unit :=
  let _ := event
  _ensureConnected s resolve

/-- The registry effect of `PBUI.subscribe` (lines 189–202): create the
event's list when missing, then append the listener unless already
present. -/
def subscribeReg (reg : String → Option (List Nat)) (event : String) (f : Nat) :
    String → Option (List Nat) :=
  let cur := (reg event).getD []
  let newList := if cur.contains f then cur else cur ++ [f]
  fun e => if e = event then some newList else reg e

/-- The registry effect of `PBUI.unsubscribe` (lines 204–221): nothing to
do when the event has no listener list or the listener is not found
(`indexOf` returning the length models JS `indexOf` returning `-1`);
otherwise splice out the found index. -/
def unsubscribeReg (reg : String → Option (List Nat)) (event : String) (f : Nat) :
    String → Option (List Nat) :=
  match reg event with
  | none => reg
  | some l =>
    let index := l.indexOf f
    if index = l.length then reg
    else fun e => if e = event then some (l.eraseIdx index) else reg e

/-- `PBUI.subscribe`: `_ensureConnected`, then the registry effect. -/
def subscribe (s : PBUIClient) (resolve : PBUIClient → PBUIClient)
    (event : String) (f : Nat) : List Action × PBUIClient × Except PBUIError Unit :=
  match _ensureConnected s resolve with
  | (acts, s', .error e) => (acts, s', .error e)
  | (acts, s', .ok ()) =>
    (acts, { s' with listeners := subscribeReg s'.listeners event f }, .ok ())

/-- `PBUI.unsubscribe`: `_ensureConnected`, then the registry effect. -/
def unsubscribe (s : PBUIClient) (resolve : PBUIClient → PBUIClient)
    (event : String) (f : Nat) : List Action × PBUIClient × Except PBUIError Unit :=
  match _ensureConnected s resolve with
  | (acts, s', .error e) => (acts, s', .error e)
  | (acts, s', .ok ()) =>
    (acts, { s' with listeners := unsubscribeReg s'.listeners event f }, .ok ())

/-- C2: every connection-dependent operation (`send`, `on`, `subscribe`,
`unsubscribe`) invoked while a connect attempt is in progress first awaits
the pending readiness future stored by that attempt — its only connection
action; none starts a transport connect — and after the await it fails
with the not-connected error exactly when no live connection exists. -/
theorem C2_ops_await_pending_connect (s : PBUIClient) (p : Nat)
    (resolve : PBUIClient → PBUIClient) (event : String) (data : Value) (f : Nat)
    (hc : s.connecting = true) (hp : s.connectionPromise = some p) :
    ((send s resolve event data).1 = [Action.awaitReadiness p] ∧
     (onEvent s resolve event).1 = [Action.awaitReadiness p] ∧
     (subscribe s resolve event f).1 = [Action.awaitReadiness p] ∧
     (unsubscribe s resolve event f).1 = [Action.awaitReadiness p]) ∧
    (Action.startTransportConnect ∉ (send s resolve event data).1 ∧
     Action.startTransportConnect ∉ (onEvent s resolve event).1 ∧
     Action.startTransportConnect ∉ (subscribe s resolve event f).1 ∧
     Action.startTransportConnect ∉ (unsubscribe s resolve event f).1) ∧
    ((send s resolve event data).2.2 = .error .notConnected ↔
       socketLive (resolve s) = false) ∧
    ((onEvent s resolve event).2.2 = .error .notConnected ↔
       socketLive (resolve s) = false) ∧
    ((subscribe s resolve event f).2.2 = .error .notConnected ↔
       socketLive (resolve s) = false) ∧
    ((unsubscribe s resolve event f).2.2 = .error .notConnected ↔
       socketLive (resolve s) = false) := by
  cases hl : socketLive (resolve s) <;>
    simp [send, onEvent, subscribe, unsubscribe, _ensureConnected, hc, hp, hl]

/-- Witness for C2: a client mid-connect with pending future 7 whose
attempt fails (the resolved state has no socket). -/
theorem C2_ops_await_pending_connect_witness :
    ((PBUIClient.mk none 0 false true (some 7) false fun _ => none).connecting
       = true ∧
     (PBUIClient.mk none 0 false true (some 7) false fun _ => none).connectionPromise
       = some 7) ∧
    (send (PBUIClient.mk none 0 false true (some 7) false fun _ => none) id
        "ev" vNull).1 = [Action.awaitReadiness 7] :=
  ⟨⟨rfl, rfl⟩,
   ((C2_ops_await_pending_connect
      (PBUIClient.mk none 0 false true (some 7) false fun _ => none) 7 id
      "ev" vNull 0 rfl rfl).1).1⟩

/-! ## `connect` and transport-level connect failures -/

/-- The transport-level outcome of one connect attempt, as delivered to the
`once('connect')` / `once('connect_error')` handlers that
`_establishConnection` (lines 49–74) installs: the success signal, or a
`connect_error` (transport error, or the 5-second connection timeout,
which socket.io also reports as `connect_error`). -/
inductive ConnectOutcome where
  | success
  | connectError (msg : String)

/-- How the promise built by `_establishConnection` settles for a given
transport outcome: it resolves on `connect` and rejects with
`Connection failed: <msg>` on `connect_error`. -/
def establishSettle : ConnectOutcome → Except PBUIError Unit
  | .success => .ok ()
  | .connectError msg => .error (.connectionFailed ("Connection failed: " ++ msg))

/-- Whether the `try` block of `PBUI.connect` (lines 26–34) raises for a
given transport outcome.  The block awaits `_disconnectIfConnected`,
*assigns* `this.connectionPromise = this._establishConnection(options)`
without awaiting it, and calls `_startHeartbeat`.  A transport-level
failure is delivered asynchronously by settling that stored promise after
the block has finished, so it never raises inside the block: the answer is
`false` for every outcome. -/
def tryBlockRaises : ConnectOutcome → Bool := fun _ => false

/-- The freshly created connect attempt as `_establishConnection` leaves
it: the socket stored in `this.socket` with the `once('connect')` /
`once('connect_error')` handler pair attached. -/
structure ConnAttempt where
  handlersAttached : Bool
  socketPresent : Bool

def establishStart : ConnAttempt :=
  { handlersAttached := true, socketPresent := true }

/-- `_cleanupSocket` (lines 160–167) acting on the attempt: when a socket
is present, `socket.off()` detaches every handler (the `once` pair
included), `socket.disconnect()` closes it and `this.socket = null`
discards it. -/
def cleanupAttempt (a : ConnAttempt) : ConnAttempt :=
  if a.socketPresent then { handlersAttached := false, socketPresent := false }
  else a

/-- The settlement of the stored readiness future once the transport
outcome is finally delivered: the `once` handlers resolve or reject it
only if they are still attached; `none` means the future stays pending
forever. -/
def settleAfterEpilogue (a : ConnAttempt) (outcome : ConnectOutcome) :
    Option (Except PBUIError Unit) :=
  if a.handlersAttached then some (establishSettle outcome) else none

/-- The observable result of one `connect()` call with respect to the
transport outcome of its attempt. -/
structure ConnectRun where
  promiseSettlement : Option (Except PBUIError Unit)
  reconnectInvoked : Bool

/-- Embedding of the control flow of `PBUI.connect` (lines 21–39).  The
`try` block starts the attempt; `_reconnect` is called in the `catch`
branch and nowhere else in `connect`, so it runs exactly when the block
raises.  After the block, `connect` *synchronously* runs
`this._cleanupSocket()` and `this._setupEventHandlers()` (lines 36–37):
the cleanup detaches the once-handlers and discards the socket before the
event loop can deliver any transport event, and the handler setup then
returns at its `if (!this.socket)` guard, attaching nothing.  The
`disconnect`-event path to `_reconnect` therefore does not exist either,
and the transport outcome settles the future per `settleAfterEpilogue`. -/
def connectRun (outcome : ConnectOutcome) : ConnectRun :=
  if tryBlockRaises outcome then
    { promiseSettlement := some (establishSettle outcome), reconnectInvoked := true }
  else
    { promiseSettlement := settleAfterEpilogue (cleanupAttempt establishStart) outcome
      reconnectInvoked := false }

/-- C5: against both halves of the claim, a transport-level connect
failure neither rejects the readiness future returned by `connect()` nor
schedules an automatic retry: `connect` synchronously detaches the
freshly installed once-handlers (`_cleanupSocket` after the `try` block),
so the future never settles, and the `catch` that contains the only
`_reconnect` call site in `connect` is unreachable for a failure that is
delivered asynchronously. -/
theorem C5_connect_failure_rejects_but_no_retry (msg : String) :
    (connectRun (.connectError msg)).promiseSettlement = none ∧
    (connectRun (.connectError msg)).reconnectInvoked = false := by
  simp [connectRun, tryBlockRaises, settleAfterEpilogue, cleanupAttempt,
    establishStart]

/-! ## The event-listener registry -/

/-- `PBUI._triggerListeners` (lines 223–227): the listeners invoked for an
event by one trigger, in registration order — none when the event has no
listener list. -/
def _triggerListeners (reg : String → Option (List Nat)) (event : String) :
    List Nat :=
  match reg event with
  | some l => l
  | none => []

/-- C7: subscribing the same listener reference to the same event twice
(on a registry where it is registered at most once, the invariant
`subscribe` maintains) leaves exactly one entry for it in the event's
list, a single trigger of the event invokes it exactly once, and the
second subscribe call is a no-op on the registry. -/
theorem C7_subscribe_idempotent (reg : String → Option (List Nat)) (e : String)
    (f : Nat) (h : ((reg e).getD []).count f ≤ 1) :
    subscribeReg (subscribeReg reg e f) e f = subscribeReg reg e f ∧
    (((subscribeReg (subscribeReg reg e f) e f) e).getD []).count f = 1 ∧
    (_triggerListeners (subscribeReg (subscribeReg reg e f) e f) e).count f = 1 := by
  by_cases hmem : f ∈ (reg e).getD []
  · have hpos : 0 < ((reg e).getD []).count f := List.count_pos_iff.mpr hmem
    have h1 : ((reg e).getD []).count f = 1 := by omega
    refine ⟨?_, ?_, ?_⟩
    · funext e'
      by_cases he : e' = e <;> simp [subscribeReg, hmem, he]
    · simp [subscribeReg, hmem, h1]
    · simp [subscribeReg, _triggerListeners, hmem, h1]
  · have h0 : ((reg e).getD []).count f = 0 := List.count_eq_zero.mpr hmem
    refine ⟨?_, ?_, ?_⟩
    · funext e'
      by_cases he : e' = e <;> simp [subscribeReg, hmem, he]
    · simp [subscribeReg, hmem, h0]
    · simp [subscribeReg, _triggerListeners, hmem, h0]

/-- Witness for C7: the empty registry, event "state-updated", listener 0. -/
theorem C7_subscribe_idempotent_witness :
    (((fun _ => none : String → Option (List Nat)) "state-updated").getD []).count 0
      ≤ 1 ∧
    subscribeReg (subscribeReg (fun _ => none) "state-updated" 0) "state-updated" 0 =
      subscribeReg (fun _ => none) "state-updated" 0 ∧
    (_triggerListeners
      (subscribeReg (subscribeReg (fun _ => none) "state-updated" 0)
        "state-updated" 0) "state-updated").count 0 = 1 :=
  ⟨by simp,
   (C7_subscribe_idempotent (fun _ => none) "state-updated" 0 (by simp)).1,
   (C7_subscribe_idempotent (fun _ => none) "state-updated" 0 (by simp)).2.2⟩

/-- C8: unsubscribing from an event with no listener list, or a listener
that is not registered, leaves the whole registry unchanged without
failing; unsubscribing a registered listener removes exactly its (first)
entry — every other listener of the event keeps its relative order, every
other event's list is untouched, and a listener registered at most once
(the `subscribe` invariant) is gone afterwards. -/
theorem C8_unsubscribe_frame (reg : String → Option (List Nat)) (e : String)
    (f : Nat) :
    (reg e = none → unsubscribeReg reg e f = reg) ∧
    (∀ l, reg e = some l → f ∉ l → unsubscribeReg reg e f = reg) ∧
    (∀ l, reg e = some l → f ∈ l →
      (unsubscribeReg reg e f) e = some (l.erase f) ∧
      (∀ e', e' ≠ e → (unsubscribeReg reg e f) e' = reg e') ∧
      (∀ g, g ≠ f → (l.erase f).count g = l.count g) ∧
      (l.erase f).Sublist l ∧
      (l.count f ≤ 1 → f ∉ l.erase f)) := by
  refine ⟨?_, ?_, ?_⟩
  · intro hn
    simp [unsubscribeReg, hn]
  · intro l hl hnm
    have hidx : l.indexOf f = l.length := List.indexOf_of_not_mem hnm
    simp [unsubscribeReg, hl, hidx]
  · intro l hl hm
    have hidx : l.indexOf f < l.length := List.indexOf_lt_length.mpr hm
    have hne : ¬ l.indexOf f = l.length := by omega
    have herase : l.eraseIdx (l.indexOf f) = l.erase f :=
      List.eraseIdx_indexOf_eq_erase f l
    refine ⟨?_, ?_, ?_, List.erase_sublist f l, ?_⟩
    · simp [unsubscribeReg, hl, hne, herase]
    · intro e' he'
      simp [unsubscribeReg, hl, hne, he']
    · intro g hg
      exact List.count_erase_of_ne hg l
    · intro hcount hmem
      have h2 := List.count_erase_self f l
      have h3 : 0 < (l.erase f).count f := List.count_pos_iff.mpr hmem
      have h4 : 0 < l.count f := List.count_pos_iff.mpr hm
      omega

/-- Witness for C8: a registry with listeners 1, 0, 2 on event "a",
unsubscribing listener 0. -/
theorem C8_unsubscribe_frame_witness :
    ((fun s => if s = "a" then some [1, 0, 2] else none :
        String → Option (List Nat)) "a" = some [1, 0, 2]) ∧
    0 ∈ [1, 0, 2] ∧
    (unsubscribeReg (fun s => if s = "a" then some [1, 0, 2] else none) "a" 0) "a" =
      some ([1, 0, 2].erase 0) ∧
    (unsubscribeReg (fun s => if s = "a" then some [1, 0, 2] else none) "a" 0) "b" =
      none :=
  ⟨by simp, by simp,
   ((C8_unsubscribe_frame (fun s => if s = "a" then some [1, 0, 2] else none)
      "a" 0).2.2 [1, 0, 2] (by simp) (by simp)).1,
   by
    have h2 := ((C8_unsubscribe_frame
      (fun s => if s = "a" then some [1, 0, 2] else none) "a" 0).2.2 [1, 0, 2]
      (by simp) (by simp)).2.1 "b" (by simp)
    simpa using h2⟩

/-! ## `PBUIState.update` -/

/-- `songStates === null` as `update` tests it. -/
def isVNull : Value → Bool
  | vNull => true
  | _ => false

/-- `isNaN(x)` as `update` applies it — only values that already passed
the `typeof x === 'number'` test reach it, so only the number cases
matter. -/
def numIsNaN : Value → Bool
  | vNum .nan => true
  | _ => false

/-- Embedding of `PBUIState.update` (lines 375–389) as executed: validate
that `songStates` is a non-null object with at least one key and that
`currentFlowStep` is a number other than `NaN`, raising a validation
error otherwise; then the POST is written
`funcs._fetchData('/update', 'POST', body)`, which raises a `TypeError`
(see `funcs_fetchData`) before any request is issued, so the success
branch `Boolean(data.success)` is dead code.  The first component records
whether a network request was issued. -/
def update (songStates currentFlowStep : Value) :
    Bool × Except JSException Bool :=
  if !(jsTypeof songStates == "object") || isVNull songStates then
    (false, .error (.error "[PBUI] Invalid songStates: Must be an object."))
  else if (jsKeys songStates).length == 0 then
    (false, .error (.error "[PBUI] songStates should not be empty."))
  else if !(jsTypeof currentFlowStep == "number") || numIsNaN currentFlowStep then
    (false, .error (.error "[PBUI] Invalid flowStep: Must be a number."))
  else
    match funcs_fetchData "/update" "POST"
        (some (vObj [("song_states", songStates),
                     ("current_flow_step", currentFlowStep)])) with
    | .error e => (false, .error e)
    | .ok data => (true, .ok (jsTruthy (getField data "success")))

/-- C6: the validation half behaves as written — `update({}, 2)` and a
non-object state map raise a validation error before any network call —
but the claim's success path is unreachable: with valid arguments,
including the claim's own scenario `update({"abc123": "cleared"}, 2)`,
the POST is written `funcs._fetchData(...)`, an instance method accessed
on the never-instantiated class `funcs`, so the call raises a `TypeError`
after validation and before any network request, and never returns
`true`.  (A flow step of `Infinity` also passes validation — the code
checks `isNaN`, not finiteness — and then hits the same `TypeError`, not
a validation error.)  In particular no call of `update` ever issues a
network request or returns a value. -/
theorem C6_update_typeerror_before_network :
    update (vObj []) (vNum (.fin 2)) =
      (false, .error (.error "[PBUI] songStates should not be empty.")) ∧
    update (vObj [("abc123", vStr "cleared")]) (vNum (.fin 2)) =
      (false, .error (.typeError "funcs._fetchData is not a function")) ∧
    update (vObj [("abc123", vStr "cleared")]) (vNum .pinf) =
      (false, .error (.typeError "funcs._fetchData is not a function")) ∧
    ∀ ss fs, ∃ e, update ss fs = (false, .error e) := by
  refine ⟨?_, ?_, ?_, ?_⟩
  · simp [update, jsTypeof, isVNull, numIsNaN, jsKeys, fieldsOf, funcs_fetchData]
  · simp [update, jsTypeof, isVNull, numIsNaN, jsKeys, fieldsOf, funcs_fetchData]
  · simp [update, jsTypeof, isVNull, numIsNaN, jsKeys, fieldsOf, funcs_fetchData]
  · intro ss fs
    simp only [update, funcs_fetchData]
    split
    · exact ⟨_, rfl⟩
    split
    · exact ⟨_, rfl⟩
    split
    · exact ⟨_, rfl⟩
    · exact ⟨_, rfl⟩

/-! ## `setApiBase` -/

/-- `url.endsWith('/')`: the last character is the separator. -/
def endsWithSlash (url : String) : Bool :=
  match url.data.getLast? with
  | some c => c == '/'
  | none => false

/-- What `PBUI.setApiBase` logs. -/
inductive ApiBaseLog where
  | urlNotProvided
  | trailingSlash
  | invalidUrl
deriving DecidableEq

/-- Embedding of `PBUI.setApiBase` (lines 229–244) together with the
module-level declaration `const apiUrl = ...` (line 4).  `wellFormedURL`
abstracts the host's `new URL` constructor (which throws on a malformed
URL, landing in the `catch`).  Because `apiUrl` is a `const` binding and
the module is strict-mode code, the assignment `apiUrl = url` raises a
`TypeError`, which the same `catch` swallows with the "Invalid URL" log —
so the final branch leaves the base URL unchanged as well.  Returns the
value of `apiUrl` after the call and what was logged (`none` when the
update would have succeeded silently). -/
def setApiBase (wellFormedURL : String → Bool) (apiUrl : String)
    (url : String) : String × Option ApiBaseLog :=
  if url = "" then (apiUrl, some .urlNotProvided)
  else if !(wellFormedURL url) then (apiUrl, some .invalidUrl)
  else if endsWithSlash url then (apiUrl, some .trailingSlash)
  else (apiUrl, some .invalidUrl)

/-- C9: `setApiBase` never throws to the caller and indeed leaves the base
URL unchanged on a missing, malformed or trailing-slash URL — but, against
the claim, it also leaves the base URL unchanged (logging "Invalid URL")
for a well-formed URL with no trailing separator, because the assignment
to the `const` binding `apiUrl` throws inside the `try` and the `catch`
swallows it: the base URL used by outbound calls can never be updated. -/
theorem C9_setApiBase_never_updates (wellFormedURL : String → Bool)
    (apiUrl url : String) :
    (setApiBase wellFormedURL apiUrl url).1 = apiUrl ∧
    (setApiBase (fun _ => true) "https://api.ultraslayyy.xyz/api"
        "https://example.com") =
      ("https://api.ultraslayyy.xyz/api", some .invalidUrl) := by
  constructor
  · simp only [setApiBase]
    split <;> (try split) <;> (try split) <;> rfl
  · simp [setApiBase]
    decide

end PBUIModel
